import Mathlib

/-!
# PawSync — formal verification of the specified core

A shallow embedding, in Lean 4, of the parts of the PawSync code base that
the specification's testable properties talk about:

* the data model (users, workspaces, workspace members, pets, homework
  tasks, homework submissions, trainer comments) — `shared/schema.ts`;
* the timeline aggregation `DatabaseStorage.getTimeline`;
* the calendar scheduling / day-status classifier of `CalendarView`
  (`getTasksForDay` / `getDayStatus`);
* the route handlers for joining a workspace, validating an invite token,
  setting the trainer profile, creating a submission, and setting a
  task's preferred days.

Database-backed storage is embedded as explicit state passing over a `Db`
record of row lists; each route handler becomes a pure function from its
request inputs and a `Db` to a response value and an updated `Db`.
JavaScript timestamps (`Date`) are embedded as natural numbers counting
milliseconds since the epoch; day-of-week and same-day computations use
the UTC day arithmetic `getDay` / `isSameDay` reduce to on such
timestamps.  Fresh row ids (`gen_random_uuid()`) are drawn from a
deterministic counter `Db.nextId`; the random invite token
(`crypto.randomBytes`) is passed in as an explicit argument.
-/

namespace PawSync

/-! ## Data model (`shared/schema.ts` and the user table it re-exports) -/

/-- A user row.  `role` is one of `"TRAINER"`, `"OWNER"`, `"ADMIN"` or
unset (`none`); `onboardingComplete` is the onboarding flag. -/
structure User where
  id : String
  email : Option String := none
  firstName : Option String := none
  lastName : Option String := none
  profileImageUrl : Option String := none
  role : Option String := none
  onboardingComplete : Bool := false
  deriving Repr, DecidableEq

/-- A workspace row: owned by one trainer, carries the unique invite
token and optional business name / bio. -/
structure Workspace where
  id : String
  trainerUserId : String
  inviteToken : String
  businessName : Option String := none
  bio : Option String := none
  deriving Repr, DecidableEq

/-- A workspace membership row (`workspace_members`). -/
structure WorkspaceMember where
  id : String
  workspaceId : String
  userId : String
  role : String
  deriving Repr, DecidableEq

/-- A pet row (the fields the verified handlers read). -/
structure Pet where
  id : String
  name : String
  ownerId : String
  trainerId : Option String := none
  workspaceId : Option String := none
  deriving Repr, DecidableEq

/-- A homework task row. -/
structure HomeworkTask where
  id : String
  petId : String
  createdByTrainerId : String
  title : String
  instructions : String
  frequency : String
  expectedDurationMins : Option Int := none
  isActive : Bool := true
  preferredDays : Option (List String) := none
  createdAt : Nat := 0
  deriving Repr, DecidableEq

/-- A homework submission row. -/
structure HomeworkSubmission where
  id : String
  taskId : String
  submittedByUserId : String
  note : Option String := none
  status : String := "COMPLETED"
  submittedAt : Nat := 0
  deriving Repr, DecidableEq

/-- A trainer comment row. -/
structure TrainerComment where
  id : String
  submissionId : String
  trainerId : String
  comment : String
  createdAt : Nat := 0
  deriving Repr, DecidableEq

/-- A submission media row. -/
structure SubmissionMedia where
  id : String
  submissionId : String
  mediaType : String
  filePath : String
  fileName : Option String := none
  deriving Repr, DecidableEq

/-- A submission together with its (optionally loaded) comments, as in
`HomeworkSubmissionWithRelations` — `comments` may be absent. -/
structure SubmissionWithRelations where
  submission : HomeworkSubmission
  comments : Option (List TrainerComment) := none
  deriving Repr, DecidableEq

/-- The database, as explicit state: one list of rows per table, plus a
counter supplying fresh row ids (`gen_random_uuid()` is embedded as a
deterministic id supply). -/
structure Db where
  users : List User := []
  workspaces : List Workspace := []
  workspaceMembers : List WorkspaceMember := []
  pets : List Pet := []
  homeworkTasks : List HomeworkTask := []
  homeworkSubmissions : List HomeworkSubmission := []
  submissionMedia : List SubmissionMedia := []
  nextId : Nat := 0
  deriving Repr, DecidableEq

/-- Draw a fresh row id from the id supply. -/
def genId (db : Db) : String × Db :=
  (toString db.nextId, { db with nextId := db.nextId + 1 })

/-- JavaScript's `x || null` on a nullable string: `null`/`undefined` and
the empty string collapse to `null`. -/
def jsOrNull (s : Option String) : Option String :=
  match s with
  | some s => if s = "" then none else some s
  | none => none

/-- JavaScript's `String.prototype.trim` (whitespace stripped from both
ends), over the string's characters. -/
def jsTrim (s : String) : String :=
  ⟨((s.data.dropWhile Char.isWhitespace).reverse.dropWhile Char.isWhitespace).reverse⟩

/-- Split a character list at every separator the predicate accepts,
keeping empty pieces (the semantics of JavaScript `String.prototype.split`
with a single-character separator). -/
def splitChars (p : Char → Bool) : List Char → List (List Char)
  | [] => [[]]
  | c :: cs =>
    match splitChars p cs with
    | [] => [[]]
    | w :: ws => if p c then [] :: w :: ws else (c :: w) :: ws

/-- JavaScript's `s.split(" ")`: split at every single space character,
keeping empty pieces; the empty string yields `[""]`. -/
def jsSplitOnSpace (s : String) : List String :=
  (splitChars (fun c => c == ' ') s.data).map (fun w => ⟨w⟩)

/-- JavaScript's `arr.join(" ")`. -/
def jsJoinSpace (l : List String) : String :=
  match l with
  | [] => ""
  | x :: xs => xs.foldl (fun acc y => acc ++ " " ++ y) x

/-! ## Storage layer (`DatabaseStorage`): lookups and single-row writes -/

/-- `storage.getUser`: select the user row with the given id. -/
def getUser (id : String) (db : Db) : Option User :=
  db.users.find? (fun u => u.id == id)

/-- `storage.getPet`: select the pet row with the given id. -/
def getPet (id : String) (db : Db) : Option Pet :=
  db.pets.find? (fun p => p.id == id)

/-- `storage.getTask`: select the task row with the given id. -/
def getTask (id : String) (db : Db) : Option HomeworkTask :=
  db.homeworkTasks.find? (fun t => t.id == id)

/-- `storage.getWorkspaceByToken`: select the workspace whose invite
token equals the given token. -/
def getWorkspaceByToken (token : String) (db : Db) : Option Workspace :=
  db.workspaces.find? (fun w => w.inviteToken == token)

/-- `storage.getWorkspaceByTrainer`: select the workspace owned by the
given trainer. -/
def getWorkspaceByTrainer (trainerId : String) (db : Db) : Option Workspace :=
  db.workspaces.find? (fun w => w.trainerUserId == trainerId)

/-- `storage.getWorkspaceMembers`: all membership rows of a workspace. -/
def getWorkspaceMembers (workspaceId : String) (db : Db) : List WorkspaceMember :=
  db.workspaceMembers.filter (fun m => m.workspaceId == workspaceId)

/-- The partial update object accepted by `storage.updateUser`
(`Partial<Pick<User, "firstName" | "lastName" | "profileImageUrl" |
"role" | "onboardingComplete">>`); `none` in the outer option means the
field is absent from the update. -/
structure UserUpdates where
  firstName : Option (Option String) := none
  lastName : Option (Option String) := none
  profileImageUrl : Option (Option String) := none
  role : Option (Option String) := none
  onboardingComplete : Option Bool := none
  deriving Repr, DecidableEq

/-- Apply a partial user update to a row (drizzle `set`). -/
def applyUserUpdates (upd : UserUpdates) (u : User) : User :=
  { u with
    firstName := upd.firstName.getD u.firstName
    lastName := upd.lastName.getD u.lastName
    profileImageUrl := upd.profileImageUrl.getD u.profileImageUrl
    role := upd.role.getD u.role
    onboardingComplete := upd.onboardingComplete.getD u.onboardingComplete }

/-- `storage.updateUser`: set the given fields on the user row with the
given id, returning the updated row (if any). -/
def updateUser (id : String) (upd : UserUpdates) (db : Db) : Option User × Db :=
  let users := db.users.map (fun u => if u.id == id then applyUserUpdates upd u else u)
  (users.find? (fun u => u.id == id), { db with users := users })

/-- The partial update object accepted by `storage.updateTask`. -/
structure TaskUpdates where
  title : Option String := none
  instructions : Option String := none
  frequency : Option String := none
  expectedDurationMins : Option (Option Int) := none
  isActive : Option Bool := none
  preferredDays : Option (Option (List String)) := none
  deriving Repr, DecidableEq

/-- Apply a partial task update to a row (drizzle `set`). -/
def applyTaskUpdates (upd : TaskUpdates) (t : HomeworkTask) : HomeworkTask :=
  { t with
    title := upd.title.getD t.title
    instructions := upd.instructions.getD t.instructions
    frequency := upd.frequency.getD t.frequency
    expectedDurationMins := upd.expectedDurationMins.getD t.expectedDurationMins
    isActive := upd.isActive.getD t.isActive
    preferredDays := upd.preferredDays.getD t.preferredDays }

/-- `storage.updateTask`: set the given fields on the task row with the
given id, returning the updated row (if any). -/
def updateTask (id : String) (upd : TaskUpdates) (db : Db) : Option HomeworkTask × Db :=
  let tasks := db.homeworkTasks.map (fun t => if t.id == id then applyTaskUpdates upd t else t)
  (tasks.find? (fun t => t.id == id), { db with homeworkTasks := tasks })

/-- The partial update object accepted by `storage.updateWorkspace`. -/
structure WorkspaceUpdates where
  businessName : Option (Option String) := none
  bio : Option (Option String) := none
  deriving Repr, DecidableEq

/-- Apply a partial workspace update to a row (drizzle `set`). -/
def applyWorkspaceUpdates (upd : WorkspaceUpdates) (w : Workspace) : Workspace :=
  { w with
    businessName := upd.businessName.getD w.businessName
    bio := upd.bio.getD w.bio }

/-- `storage.updateWorkspace`: set the given fields on the workspace row
with the given id, returning the updated row (if any). -/
def updateWorkspace (id : String) (upd : WorkspaceUpdates) (db : Db) : Option Workspace × Db :=
  let ws := db.workspaces.map (fun w => if w.id == id then applyWorkspaceUpdates upd w else w)
  (ws.find? (fun w => w.id == id), { db with workspaces := ws })

/-- `storage.createWorkspace`: insert a workspace row. -/
def createWorkspace (w : Workspace) (db : Db) : Db :=
  { db with workspaces := db.workspaces ++ [w] }

/-- `storage.addWorkspaceMember`: insert a membership row. -/
def addWorkspaceMember (m : WorkspaceMember) (db : Db) : Db :=
  { db with workspaceMembers := db.workspaceMembers ++ [m] }

/-- `storage.createSubmission`: insert a submission row. -/
def createSubmission (s : HomeworkSubmission) (db : Db) : Db :=
  { db with homeworkSubmissions := db.homeworkSubmissions ++ [s] }

/-- `storage.createSubmissionMedia`: insert a submission media row. -/
def createSubmissionMedia (m : SubmissionMedia) (db : Db) : Db :=
  { db with submissionMedia := db.submissionMedia ++ [m] }

/-! ## Calendar view (`CalendarView` in the dashboard page)

Timestamps are milliseconds since the epoch; `getDay` and `isSameDay`
are the date-fns helpers the component uses, embedded over UTC day
arithmetic (1970-01-01 was a Thursday, weekday number 4). -/

/-- JavaScript's `String.prototype.toLowerCase` on the ASCII strings the
calendar compares (each character lower-cased). -/
def jsToLowerCase (s : String) : String := ⟨s.data.map Char.toLower⟩

/-- Milliseconds per calendar day. -/
def msPerDay : Nat := 86400000

/-- The calendar day index of a timestamp. -/
def epochDay (t : Nat) : Nat := t / msPerDay

/-- date-fns `getDay`: day of week, 0 = Sunday … 6 = Saturday. -/
def getDay (t : Nat) : Nat := (epochDay t + 4) % 7

/-- date-fns `isSameDay`: two timestamps fall on the same calendar day. -/
def isSameDay (a b : Nat) : Bool := epochDay a == epochDay b

/-- The `dayNameToNumber` record of `CalendarView`, as the key-indexed
lookup it is used for; an unknown key looks up to `undefined` (`none`). -/
def dayNameToNumber (d : String) : Option Nat :=
  if d == "Sun" then some 0
  else if d == "Mon" then some 1
  else if d == "Tue" then some 2
  else if d == "Wed" then some 3
  else if d == "Thu" then some 4
  else if d == "Fri" then some 5
  else if d == "Sat" then some 6
  else none

/-- `CalendarView.getTasksForDay`: the tasks scheduled on the given day.
A non-empty `preferredDays` list wins; otherwise the task's frequency
string (lower-cased, `undefined` collapsing to `""`) is matched against
the hardcoded weekday mappings, defaulting to every day. -/
def getTasksForDay (tasks : List HomeworkTask) (day : Nat) : List HomeworkTask :=
  let dayOfWeek := getDay day
  tasks.filter fun task =>
    match task.preferredDays with
    | some pds =>
      if pds.length > 0 then
        pds.any (fun d => dayNameToNumber d == some dayOfWeek)
      else
        frequencyMatches task.frequency dayOfWeek
    | none => frequencyMatches task.frequency dayOfWeek
where
  /-- The frequency-string fallback of `getTasksForDay` (the body after
  the `preferredDays` guard), taking the raw frequency column. -/
  frequencyMatches (frequency : String) (dayOfWeek : Nat) : Bool :=
    let freq := (jsToLowerCase frequency)
    if freq == "daily" then true
    else if freq == "3x/week" || freq == "3x per week" then
      dayOfWeek == 1 || dayOfWeek == 3 || dayOfWeek == 5
    else if freq == "2x/week" || freq == "2x per week" then
      dayOfWeek == 2 || dayOfWeek == 5
    else if freq == "weekly" then dayOfWeek == 1
    else true

/-- `CalendarView.getSubmissionsForDay`: the submissions made on the
given calendar day. -/
def getSubmissionsForDay (submissions : List HomeworkSubmission) (day : Nat) :
    List HomeworkSubmission :=
  submissions.filter (fun sub => isSameDay sub.submittedAt day)

/-- `CalendarView.getDayStatus`.  The component reads the clock
(`new Date()`) while computing the status; the embedding makes that read
an explicit `now` argument. -/
def getDayStatus (tasks : List HomeworkTask) (submissions : List HomeworkSubmission)
    (day now : Nat) : String :=
  let tasksForDay := getTasksForDay tasks day
  let subsForDay := getSubmissionsForDay submissions day
  if tasksForDay.length == 0 then "none"
  else if day > now then "future"
  else
    let completedTaskCount :=
      (tasksForDay.filter fun task => subsForDay.any (fun sub => sub.taskId == task.id)).length
    if completedTaskCount ≥ tasksForDay.length then "complete"
    else if completedTaskCount > 0 then "partial"
    else "missed"

/-! ## Specification-side calendar predicates

Two renderings of the spec's scheduling rule, to be compared against
`getTasksForDay`: one reading the claim literally (exact frequency
strings), and one amended to compare the frequency case-insensitively. -/

/-- The `weekDays` abbreviation list of the component; `weekdayAbbrev n`
is the abbreviation of weekday number `n`. -/
def weekdayAbbrev (dow : Nat) : String :=
  ["Sun", "Mon", "Tue", "Wed", "Thu", "Fri", "Sat"].getD dow ""

/-- The claim's frequency rule, read literally: the frequency string is
matched exactly against `"daily"`, `"3x/week"`/`"3x per week"`,
`"2x/week"`/`"2x per week"`, `"weekly"`; any other string means every
day. -/
def claimFrequencyRule (frequency : String) (ab : String) : Bool :=
  if frequency == "daily" then true
  else if frequency == "3x/week" || frequency == "3x per week" then
    ["Mon", "Wed", "Fri"].contains ab
  else if frequency == "2x/week" || frequency == "2x per week" then
    ["Tue", "Fri"].contains ab
  else if frequency == "weekly" then ab == "Mon"
  else true

/-- The claim's scheduling rule, read literally: a task is scheduled on a
day iff its `preferredDays` is a non-empty list containing the day's
weekday abbreviation, or `preferredDays` is unset/empty and the exact
frequency string maps the day in. -/
def claimScheduledExact (task : HomeworkTask) (day : Nat) : Bool :=
  let ab := weekdayAbbrev (getDay day)
  match task.preferredDays with
  | some pds =>
    if !pds.isEmpty then pds.contains ab else claimFrequencyRule task.frequency ab
  | none => claimFrequencyRule task.frequency ab

/-- The amended scheduling rule: as the claim states it, except that the
frequency string is compared case-insensitively (lower-cased first). -/
def specScheduled (task : HomeworkTask) (day : Nat) : Bool :=
  let ab := weekdayAbbrev (getDay day)
  match task.preferredDays with
  | some pds =>
    if !pds.isEmpty then pds.contains ab
    else claimFrequencyRule (jsToLowerCase task.frequency) ab
  | none => claimFrequencyRule (jsToLowerCase task.frequency) ab

/-- The claim's day-status rule: `none` if no task is scheduled, else
`future` if the day is in the future, else `complete`/`partial`/`missed`
according to whether all, some, or no scheduled task has a same-day
submission. -/
def specDayStatus (tasks : List HomeworkTask) (submissions : List HomeworkSubmission)
    (day now : Nat) : String :=
  let scheduled := tasks.filter (fun t => specScheduled t day)
  let hasSub := fun (t : HomeworkTask) =>
    submissions.any (fun s => isSameDay s.submittedAt day && s.taskId == t.id)
  if scheduled.isEmpty then "none"
  else if day > now then "future"
  else if scheduled.all hasSub then "complete"
  else if scheduled.any hasSub then "partial"
  else "missed"

/-- Looking a string up in `dayNameToNumber` finds weekday number `dow`
exactly when the string is `dow`'s abbreviation. -/
lemma lookup_dayNameToNumber_eq (d : String) (dow : Nat) (h : dow < 7) :
    (dayNameToNumber d == some dow) = (d == weekdayAbbrev dow) := by
  interval_cases dow <;>
    · unfold dayNameToNumber weekdayAbbrev
      split_ifs <;> simp_all [beq_iff_eq]

/-- The membership test of `getTasksForDay` over a preferred-days list
agrees with membership of the day's abbreviation. -/
lemma any_lookup_eq_contains (pds : List String) (dow : Nat) (h : dow < 7) :
    (pds.any fun d => dayNameToNumber d == some dow)
      = pds.contains (weekdayAbbrev dow) := by
  induction pds with
  | nil => rfl
  | cons d rest ih =>
    simp only [List.any_cons, List.contains_cons, ih]
    rw [lookup_dayNameToNumber_eq d dow h, Bool.beq_comm]

/-- The frequency fallback of `getTasksForDay` agrees with the claim's
frequency rule applied to the lower-cased frequency string. -/
lemma frequencyMatches_eq_claimRule (frequency : String) (dow : Nat) (h : dow < 7) :
    getTasksForDay.frequencyMatches frequency dow
      = claimFrequencyRule (jsToLowerCase frequency) (weekdayAbbrev dow) := by
  unfold getTasksForDay.frequencyMatches claimFrequencyRule
  interval_cases dow <;> (split_ifs <;> simp_all [weekdayAbbrev])

/-- Pointwise: the filter predicate of `getTasksForDay` is the amended
scheduling rule. -/
lemma taskScheduledOn_eq_specScheduled (task : HomeworkTask) (day : Nat) :
    (match task.preferredDays with
      | some pds =>
        if pds.length > 0 then
          pds.any (fun d => dayNameToNumber d == some (getDay day))
        else getTasksForDay.frequencyMatches task.frequency (getDay day)
      | none => getTasksForDay.frequencyMatches task.frequency (getDay day))
      = specScheduled task day := by
  have h7 : getDay day < 7 := Nat.mod_lt _ (by norm_num)
  unfold specScheduled
  cases task.preferredDays with
  | none => exact frequencyMatches_eq_claimRule _ _ h7
  | some pds =>
    simp only
    have hlen : (pds.length > 0) ↔ (!pds.isEmpty) = true := by
      cases pds <;> simp
    rcases Decidable.em (pds.length > 0) with hp | hp
    · rw [if_pos hp, if_pos (hlen.mp hp), any_lookup_eq_contains _ _ h7]
    · rw [if_neg hp, if_neg (fun hc => hp (hlen.mpr hc))]
      exact frequencyMatches_eq_claimRule _ _ h7

/-- `getTasksForDay` filters exactly the tasks the amended rule
schedules. -/
lemma getTasksForDay_eq_filter_spec (tasks : List HomeworkTask) (day : Nat) :
    getTasksForDay tasks day = tasks.filter (fun t => specScheduled t day) := by
  unfold getTasksForDay
  exact List.filter_congr (fun t _ => taskScheduledOn_eq_specScheduled t day)

/-- `getDayStatus` computes exactly the claim's day-status rule (with
the amended scheduling rule). -/
lemma getDayStatus_eq_specDayStatus (tasks : List HomeworkTask)
    (subs : List HomeworkSubmission) (day now : Nat) :
    getDayStatus tasks subs day now = specDayStatus tasks subs day now := by
  simp only [getDayStatus, specDayStatus, getSubmissionsForDay]
  rw [getTasksForDay_eq_filter_spec]
  set q := fun (t : HomeworkTask) =>
    subs.any fun s => isSameDay s.submittedAt day && s.taskId == t.id with hq
  have hpred : (fun (task : HomeworkTask) =>
      (subs.filter fun sub => isSameDay sub.submittedAt day).any
        fun sub => sub.taskId == task.id) = q := by
    funext t
    rw [hq, List.any_filter]
  simp only [hpred]
  set scheduled := tasks.filter (fun t => specScheduled t day) with hsched
  by_cases h1 : scheduled = []
  · simp [h1]
  · have hl1 : (scheduled.length == 0) = false := by
      simp [List.length_eq_zero, h1]
    have hl2 : scheduled.isEmpty = false := by
      simp [List.isEmpty_iff, h1]
    simp only [hl1, hl2, Bool.false_eq_true, if_false]
    by_cases h2 : day > now
    · rw [if_pos h2, if_pos h2]
    · rw [if_neg h2, if_neg h2]
      by_cases h3 : ∀ t ∈ scheduled, q t
      · have hcl : (scheduled.filter q).length = scheduled.length :=
          List.filter_length_eq_length.mpr h3
        have hall : scheduled.all q = true := List.all_eq_true.mpr h3
        rw [if_pos (Nat.le_of_eq hcl.symm), if_pos hall]
      · have hge : ¬ (scheduled.length ≤ (scheduled.filter q).length) := fun hge =>
          h3 (List.filter_length_eq_length.mp
            (Nat.le_antisymm (List.length_filter_le _ _) hge))
        have hall : ¬ (scheduled.all q = true) := fun hc => h3 (List.all_eq_true.mp hc)
        rw [if_neg hge, if_neg hall]
        by_cases h4 : ∃ t, t ∈ scheduled ∧ q t
        · have hpos : 0 < (scheduled.filter q).length := by
            rcases h4 with ⟨t, ht, hqt⟩
            exact List.length_pos_of_mem (List.mem_filter.mpr ⟨ht, hqt⟩)
          have hany : scheduled.any q = true := List.any_eq_true.mpr h4
          rw [if_pos hpos, if_pos hany]
        · have hpos : ¬ (0 < (scheduled.filter q).length) := by
            intro hp
            rcases List.exists_mem_of_length_pos hp with ⟨t, ht⟩
            exact h4 ⟨t, (List.mem_filter.mp ht).1, (List.mem_filter.mp ht).2⟩
          have hany : ¬ (scheduled.any q = true) := fun hc => h4 (List.any_eq_true.mp hc)
          rw [if_neg hpos, if_neg hany]

/-- The claim's day-status rule built on the literal (case-sensitive)
scheduling rule, for comparison against the code. -/
def claimDayStatusExact (tasks : List HomeworkTask) (submissions : List HomeworkSubmission)
    (day now : Nat) : String :=
  let scheduled := tasks.filter (fun t => claimScheduledExact t day)
  let hasSub := fun (t : HomeworkTask) =>
    submissions.any (fun s => isSameDay s.submittedAt day && s.taskId == t.id)
  if scheduled.isEmpty then "none"
  else if day > now then "future"
  else if scheduled.all hasSub then "complete"
  else if scheduled.any hasSub then "partial"
  else "missed"

/-- A task whose frequency string is `"Weekly"` (capital W), with no
preferred days. -/
def weeklyCapTask : HomeworkTask :=
  { id := "t1", petId := "p1", createdByTrainerId := "tr1", title := "Practice recall",
    instructions := "", frequency := "Weekly" }

/-- A Tuesday (1970-01-06, in epoch milliseconds). -/
def tuesdayMs : Nat := 432000000

/-- C2, counterexample: the code lower-cases the frequency string before
matching, which the claim's mapping omits.  A task with frequency
`"Weekly"` and no preferred days is scheduled on a past Tuesday by the
claim's literal rule (`"Weekly"` is "any other string", hence every
day), yet `getTasksForDay` does not schedule it (it lower-cases to
`"weekly"`, mapping Monday only), so the day's status is `none` where
the claim's rule yields `missed`. -/
theorem calendar_frequency_case_counterexample :
    claimScheduledExact weeklyCapTask tuesdayMs = true
    ∧ getTasksForDay [weeklyCapTask] tuesdayMs = []
    ∧ claimDayStatusExact [weeklyCapTask] [] tuesdayMs 864000000 = "missed"
    ∧ getDayStatus [weeklyCapTask] [] tuesdayMs 864000000 = "none" := by
  refine ⟨by decide, by decide, by decide, by decide⟩

/-- C2 (amended: the frequency string is matched case-insensitively,
i.e. lower-cased first): a task is scheduled on a day exactly when the
amended rule says so — non-empty `preferredDays` decides by membership
of the day's weekday abbreviation, otherwise the lower-cased frequency
maps `"daily"` to every day, `"3x/week"`/`"3x per week"` to
Mon/Wed/Fri, `"2x/week"`/`"2x per week"` to Tue/Fri, `"weekly"` to Mon
and anything else to every day — and the day's status is `none` with no
scheduled task, else `future` for a future day, else
`complete`/`partial`/`missed` as all/some/none of the scheduled tasks
have a same-day submission. -/
theorem calendar_scheduling_and_status (tasks : List HomeworkTask)
    (subs : List HomeworkSubmission) (day now : Nat) :
    (∀ t, t ∈ getTasksForDay tasks day ↔ (t ∈ tasks ∧ specScheduled t day = true))
    ∧ getDayStatus tasks subs day now = specDayStatus tasks subs day now := by
  constructor
  · intro t
    rw [getTasksForDay_eq_filter_spec]
    exact List.mem_filter
  · exact getDayStatus_eq_specDayStatus tasks subs day now

/-- A task scheduled every day (frequency `"daily"`). -/
def dailyTask : HomeworkTask :=
  { id := "t2", petId := "p1", createdByTrainerId := "tr1", title := "Daily walk",
    instructions := "", frequency := "daily" }

/-- C4, counterexample: `getDayStatus` reads the clock (`new Date()`),
so it is not a function of (day, task list, submission list) alone: with
identical day, tasks and submissions, evaluating before the day yields
`future` and evaluating after it yields `missed`. -/
theorem getDayStatus_clock_dependence_counterexample :
    getDayStatus [dailyTask] [] tuesdayMs 0 = "future"
    ∧ getDayStatus [dailyTask] [] tuesdayMs 864000000 = "missed"
    ∧ getDayStatus [dailyTask] [] tuesdayMs 0
        ≠ getDayStatus [dailyTask] [] tuesdayMs 864000000 := by
  refine ⟨by decide, by decide, by decide⟩

/-- C4 (amended: the classifier is a deterministic function of the day,
the task list, the submission list and the current time, and the current
time matters only through whether the day lies in the future): two
evaluations whose clocks agree on whether the day is in the future yield
the same status. -/
theorem getDayStatus_deterministic (tasks : List HomeworkTask)
    (subs : List HomeworkSubmission) (day n1 n2 : Nat) (h : day > n1 ↔ day > n2) :
    getDayStatus tasks subs day n1 = getDayStatus tasks subs day n2 := by
  simp only [getDayStatus]
  by_cases hl : ((getTasksForDay tasks day).length == 0) = true
  · rw [if_pos hl, if_pos hl]
  · rw [if_neg hl, if_neg hl]
    by_cases hd : day > n1
    · rw [if_pos hd, if_pos (h.mp hd)]
    · rw [if_neg hd, if_neg (fun hc => hd (h.mpr hc))]

/-- Witness for `getDayStatus_deterministic` at a concrete day, task
list and pair of clocks. -/
theorem getDayStatus_deterministic_witness :
    getDayStatus [dailyTask] [] tuesdayMs 500000000
      = getDayStatus [dailyTask] [] tuesdayMs 600000000 :=
  getDayStatus_deterministic [dailyTask] [] tuesdayMs 500000000 600000000 (by decide)

/-! ## Timeline aggregation (`DatabaseStorage.getTimeline`) -/

/-- The payload of a timeline entry: the underlying record. -/
inductive TimelineData where
  | task (t : HomeworkTask)
  | submission (s : SubmissionWithRelations)
  | comment (c : TrainerComment)
  deriving Repr, DecidableEq

/-- A timeline entry (`TimelineItem` in `shared/schema.ts`): a type tag,
the entry's date and the underlying record. -/
structure TimelineItem where
  type : String
  date : Nat
  data : TimelineData
  deriving Repr, DecidableEq

/-- The body of `getTimeline`'s submission loop: one entry for the
submission, then one per loaded comment (`if (submission.comments)`
guards the comment loop). -/
def submissionEntries (sub : SubmissionWithRelations) : List TimelineItem :=
  { type := "submission", date := sub.submission.submittedAt, data := .submission sub }
    :: (match sub.comments with
        | some cs => cs.map fun c =>
            { type := "comment", date := c.createdAt, data := .comment c }
        | none => [])

/-- The flattened entry list `getTimeline` builds before sorting: one
entry per task, then, per submission, one entry for the submission
followed by one per loaded comment. -/
def timelineEntries (tasks : List HomeworkTask)
    (submissions : List SubmissionWithRelations) : List TimelineItem :=
  (tasks.map fun task =>
    { type := "task", date := task.createdAt, data := .task task })
  ++ (submissions.map submissionEntries).flatten

/-- The comparator `(a, b) => new Date(b.date).getTime() - new
Date(a.date).getTime()` as an order: `a` may precede `b` iff the
comparator is `≤ 0`, i.e. `b.date ≤ a.date`. -/
def timelineLe (a b : TimelineItem) : Bool := b.date ≤ a.date

/-- `DatabaseStorage.getTimeline`: flatten tasks, submissions and their
comments into entries, then stable-sort descending by date
(`Array.prototype.sort` is a stable sort; it is embedded as a stable
merge sort under the comparator's order). -/
def getTimeline (tasks : List HomeworkTask)
    (submissions : List SubmissionWithRelations) : List TimelineItem :=
  (timelineEntries tasks submissions).mergeSort timelineLe

/-- The total number of loaded comments across a submission list. -/
def totalComments (submissions : List SubmissionWithRelations) : Nat :=
  (submissions.map fun s => (s.comments.getD []).length).sum

/-- One submission contributes one entry plus one per loaded comment. -/
lemma length_submissionEntries (sub : SubmissionWithRelations) :
    (submissionEntries sub).length = 1 + (sub.comments.getD []).length := by
  unfold submissionEntries
  cases sub.comments <;> simp [Nat.add_comm]

/-- The flattened entry list has one entry per task, submission and
comment. -/
lemma length_timelineEntries (tasks : List HomeworkTask)
    (submissions : List SubmissionWithRelations) :
    (timelineEntries tasks submissions).length
      = tasks.length + submissions.length + totalComments submissions := by
  unfold timelineEntries
  rw [List.length_append, List.length_map]
  have h : ((submissions.map submissionEntries).flatten).length
      = submissions.length + totalComments submissions := by
    induction submissions with
    | nil => simp [totalComments]
    | cons s rest ih =>
      simp only [List.map_cons, List.flatten_cons, List.length_append, ih,
        length_submissionEntries, totalComments, List.sum_cons, List.length_cons]
      omega
  rw [h]
  omega

/-- C1: for every pet's fetched rows — `T` tasks, `S` submissions, `C`
loaded comments — `getTimeline` returns a permutation of the one-entry-
per-record flattening with exactly `T + S + C` entries, sorted
descending by each entry's date (`createdAt`, `submittedAt`,
`createdAt` respectively). -/
theorem getTimeline_spec (tasks : List HomeworkTask)
    (submissions : List SubmissionWithRelations) :
    (getTimeline tasks submissions).Perm (timelineEntries tasks submissions)
    ∧ (getTimeline tasks submissions).length
        = tasks.length + submissions.length + totalComments submissions
    ∧ (getTimeline tasks submissions).Pairwise (fun a b => b.date ≤ a.date) := by
  refine ⟨List.mergeSort_perm _ _, ?_, ?_⟩
  · rw [getTimeline, List.length_mergeSort, length_timelineEntries]
  · have hs := @List.sorted_mergeSort TimelineItem timelineLe
      (fun a b c h1 h2 => by
        simp only [timelineLe, decide_eq_true_eq] at *
        omega)
      (fun a b => by
        simp only [timelineLe, Bool.or_eq_true, decide_eq_true_eq]
        omega)
      (timelineEntries tasks submissions)
    exact hs.imp (fun h => by simpa [timelineLe] using h)

/-! ## Workspace join (`POST /api/workspaces/join`) -/

/-- The possible responses of the join handler. -/
inductive JoinResponse where
  /-- HTTP 401: no authenticated user id on the request. -/
  | unauthenticated
  /-- HTTP 400: no token in the request body (JS falsiness: `""` counts). -/
  | tokenRequired
  /-- HTTP 404: no workspace matches the token ("Invalid invite link"). -/
  | invalidToken
  /-- HTTP 400: the joining user is the workspace's own trainer ("You cannot
  join your own workspace as an owner"). -/
  | selfJoin
  /-- HTTP 200: the user already had a membership row (`alreadyMember: true`). -/
  | alreadyMember (workspaceId : String)
  /-- HTTP 201: a membership row was inserted. -/
  | joined (workspaceId : String)
  deriving Repr, DecidableEq

/-- The update `{ role: "OWNER", onboardingComplete: false }` both join
branches apply to the joining user. -/
def ownerJoinUpdates : UserUpdates :=
  { role := some (some "OWNER"), onboardingComplete := some false }

/-- The `POST /api/workspaces/join` handler. -/
def joinWorkspace (userId? : Option String) (token : String) (db : Db) :
    JoinResponse × Db :=
  match userId? with
  | none => (.unauthenticated, db)
  | some userId =>
    if token == "" then (.tokenRequired, db)
    else
      match getWorkspaceByToken token db with
      | none => (.invalidToken, db)
      | some workspace =>
        if workspace.trainerUserId == userId then (.selfJoin, db)
        else
          let existingMembers := getWorkspaceMembers workspace.id db
          if existingMembers.any (fun m => m.userId == userId) then
            let db1 := (updateUser userId ownerJoinUpdates db).2
            (.alreadyMember workspace.id, db1)
          else
            let (memberId, db1) := genId db
            let db2 := addWorkspaceMember
              { id := memberId, workspaceId := workspace.id, userId := userId,
                role := "OWNER" } db1
            let db3 := (updateUser userId ownerJoinUpdates db2).2
            (.joined workspace.id, db3)

/-- The number of membership rows for a (workspace, user) pair. -/
def membershipCount (workspaceId userId : String) (db : Db) : Nat :=
  (db.workspaceMembers.filter
    (fun m => m.workspaceId == workspaceId && m.userId == userId)).length

/-- The handler's `alreadyMember` test holds exactly when the pair has a
membership row. -/
lemma any_member_iff_membershipCount_pos (ws u : String) (db : Db) :
    ((getWorkspaceMembers ws db).any (fun m => m.userId == u) = true)
      ↔ 0 < membershipCount ws u db := by
  unfold getWorkspaceMembers membershipCount
  rw [List.any_filter, List.any_eq_true]
  constructor
  · rintro ⟨m, hm, hp⟩
    exact List.length_pos_of_mem (List.mem_filter.mpr ⟨hm, hp⟩)
  · intro hp
    rcases List.exists_mem_of_length_pos hp with ⟨m, hm⟩
    exact ⟨m, (List.mem_filter.mp hm).1, (List.mem_filter.mp hm).2⟩

/-- Inserting a membership row for the pair raises its count by one. -/
lemma membershipCount_addWorkspaceMember (ws u mid role : String) (db : Db) :
    membershipCount ws u (addWorkspaceMember
      { id := mid, workspaceId := ws, userId := u, role := role } db)
      = membershipCount ws u db + 1 := by
  unfold membershipCount addWorkspaceMember
  simp

/-- With the hypotheses of a non-self join against a valid token,
`joinWorkspace` reduces to its membership dichotomy. -/
lemma joinWorkspace_eq (u token : String) (db : Db) (ws : Workspace)
    (htok : token ≠ "") (hws : getWorkspaceByToken token db = some ws)
    (hself : ws.trainerUserId ≠ u) :
    joinWorkspace (some u) token db =
      if (getWorkspaceMembers ws.id db).any (fun m => m.userId == u) then
        (.alreadyMember ws.id, (updateUser u ownerJoinUpdates db).2)
      else
        (.joined ws.id, (updateUser u ownerJoinUpdates (addWorkspaceMember
          { id := (genId db).1, workspaceId := ws.id, userId := u, role := "OWNER" }
          (genId db).2)).2) := by
  unfold joinWorkspace
  simp [hws, htok, hself]

/-- C3: joining is idempotent per user and token.  If a non-trainer user
joins a workspace matching a valid token from a state satisfying the
at-most-one-membership invariant, the first call succeeds (newly joined
or already a member) and leaves the pair's membership count at 1; a
second call with the same token then reports `alreadyMember`, inserts no
membership row, and the count for the (workspace, user) pair is still
1. -/
theorem joinWorkspace_idempotent (u token : String) (db : Db) (ws : Workspace)
    (htok : token ≠ "") (hws : getWorkspaceByToken token db = some ws)
    (hself : ws.trainerUserId ≠ u) (hinv : membershipCount ws.id u db ≤ 1) :
    ((joinWorkspace (some u) token db).1 = .joined ws.id
      ∨ (joinWorkspace (some u) token db).1 = .alreadyMember ws.id)
    ∧ membershipCount ws.id u (joinWorkspace (some u) token db).2 = 1
    ∧ (joinWorkspace (some u) token (joinWorkspace (some u) token db).2).1
        = .alreadyMember ws.id
    ∧ (joinWorkspace (some u) token (joinWorkspace (some u) token db).2).2.workspaceMembers
        = (joinWorkspace (some u) token db).2.workspaceMembers
    ∧ membershipCount ws.id u
        (joinWorkspace (some u) token (joinWorkspace (some u) token db).2).2 = 1 := by
  rw [joinWorkspace_eq u token db ws htok hws hself]
  by_cases hmem : (getWorkspaceMembers ws.id db).any (fun m => m.userId == u) = true
  · rw [if_pos hmem]
    have hc : membershipCount ws.id u db = 1 :=
      Nat.le_antisymm hinv ((any_member_iff_membershipCount_pos _ _ _).mp hmem)
    have hws1 : getWorkspaceByToken token (updateUser u ownerJoinUpdates db).2 = some ws := hws
    have hmem1 : (getWorkspaceMembers ws.id (updateUser u ownerJoinUpdates db).2).any
        (fun m => m.userId == u) = true := hmem
    rw [joinWorkspace_eq u token _ ws htok hws1 hself, if_pos hmem1]
    exact ⟨Or.inr rfl, hc, rfl, rfl, hc⟩
  · rw [if_neg hmem]
    have hc0 : membershipCount ws.id u db = 0 := by
      by_contra h
      exact hmem ((any_member_iff_membershipCount_pos _ _ _).mpr (Nat.pos_of_ne_zero h))
    have hc3 : membershipCount ws.id u (updateUser u ownerJoinUpdates
        (addWorkspaceMember
          { id := (genId db).1, workspaceId := ws.id, userId := u, role := "OWNER" }
          (genId db).2)).2 = 1 := by
      have := membershipCount_addWorkspaceMember ws.id u (genId db).1 "OWNER" (genId db).2
      calc membershipCount ws.id u _ = membershipCount ws.id u db + 1 := this
        _ = 1 := by rw [hc0]
    have hws3 : getWorkspaceByToken token (updateUser u ownerJoinUpdates
        (addWorkspaceMember
          { id := (genId db).1, workspaceId := ws.id, userId := u, role := "OWNER" }
          (genId db).2)).2 = some ws := hws
    have hmem3 : (getWorkspaceMembers ws.id (updateUser u ownerJoinUpdates
        (addWorkspaceMember
          { id := (genId db).1, workspaceId := ws.id, userId := u, role := "OWNER" }
          (genId db).2)).2).any (fun m => m.userId == u) = true :=
      (any_member_iff_membershipCount_pos _ _ _).mpr (by rw [hc3]; exact Nat.one_pos)
    rw [joinWorkspace_eq u token _ ws htok hws3 hself, if_pos hmem3]
    exact ⟨Or.inl rfl, hc3, rfl, rfl, hc3⟩

/-- A concrete workspace used by the join fixtures. -/
def wsFixture : Workspace :=
  { id := "w1", trainerUserId := "tr1", inviteToken := "tok1" }

/-- A concrete database with one trainer, their workspace and the
trainer's own membership row, plus a signed-in user `"u1"`. -/
def dbJoinFixture : Db :=
  { users :=
      [{ id := "tr1", firstName := some "Sarah", lastName := some "Johnson",
         role := some "TRAINER", onboardingComplete := true },
       { id := "u1", role := none, onboardingComplete := false }],
    workspaces := [wsFixture],
    workspaceMembers :=
      [{ id := "m0", workspaceId := "w1", userId := "tr1", role := "TRAINER" }],
    nextId := 5 }

/-- Witness for `joinWorkspace_idempotent`: user `"u1"` joins workspace
`"w1"` twice with token `"tok1"`. -/
theorem joinWorkspace_idempotent_witness :
    ((joinWorkspace (some "u1") "tok1" dbJoinFixture).1 = .joined wsFixture.id
      ∨ (joinWorkspace (some "u1") "tok1" dbJoinFixture).1 = .alreadyMember wsFixture.id)
    ∧ membershipCount wsFixture.id "u1"
        (joinWorkspace (some "u1") "tok1" dbJoinFixture).2 = 1
    ∧ (joinWorkspace (some "u1") "tok1"
        (joinWorkspace (some "u1") "tok1" dbJoinFixture).2).1
        = .alreadyMember wsFixture.id
    ∧ (joinWorkspace (some "u1") "tok1"
        (joinWorkspace (some "u1") "tok1" dbJoinFixture).2).2.workspaceMembers
        = (joinWorkspace (some "u1") "tok1" dbJoinFixture).2.workspaceMembers
    ∧ membershipCount wsFixture.id "u1"
        (joinWorkspace (some "u1") "tok1"
          (joinWorkspace (some "u1") "tok1" dbJoinFixture).2).2 = 1 :=
  joinWorkspace_idempotent "u1" "tok1" dbJoinFixture wsFixture
    (by decide) (by decide) (by decide) (by decide)

/-- C6: a trainer joining their own workspace via their own token is
rejected with the self-join error, and the state — membership rows and
user records included — is unchanged. -/
theorem joinWorkspace_selfJoin (u token : String) (db : Db) (ws : Workspace)
    (htok : token ≠ "") (hws : getWorkspaceByToken token db = some ws)
    (hself : ws.trainerUserId = u) :
    joinWorkspace (some u) token db = (.selfJoin, db) := by
  unfold joinWorkspace
  simp [hws, htok, hself]

/-- Witness for `joinWorkspace_selfJoin`: the trainer `"tr1"` redeems
their own token. -/
theorem joinWorkspace_selfJoin_witness :
    joinWorkspace (some "tr1") "tok1" dbJoinFixture = (.selfJoin, dbJoinFixture) :=
  joinWorkspace_selfJoin "tr1" "tok1" dbJoinFixture wsFixture
    (by decide) (by decide) (by decide)

/-- `applyUserUpdates` never changes a row's id. -/
lemma applyUserUpdates_id (upd : UserUpdates) (u : User) :
    (applyUserUpdates upd u).id = u.id := rfl

/-- Updating the rows whose id matches commutes with looking the id
up. -/
lemma find?_map_updateUser (u : String) (upd : UserUpdates) (l : List User) (usr : User)
    (hu : l.find? (fun x => x.id == u) = some usr) :
    (l.map (fun x => if x.id == u then applyUserUpdates upd x else x)).find?
      (fun x => x.id == u) = some (applyUserUpdates upd usr) := by
  induction l with
  | nil => simp at hu
  | cons x xs ih =>
    rw [List.map_cons]
    by_cases hx : (x.id == u) = true
    · rw [List.find?_cons_of_pos (p := fun (y : User) => y.id == u) xs hx] at hu
      rw [if_pos hx, List.find?_cons_of_pos (p := fun (y : User) => y.id == u) _
        (show ((applyUserUpdates upd x).id == u) = true by
          rw [applyUserUpdates_id]; exact hx)]
      simp only [Option.some.injEq] at hu
      rw [hu]
    · rw [List.find?_cons_of_neg (p := fun (y : User) => y.id == u) xs hx] at hu
      rw [if_neg hx, List.find?_cons_of_neg (p := fun (y : User) => y.id == u) _ hx]
      exact ih hu

/-- Reading back a user after `updateUser` on the same id returns the
updated row. -/
lemma getUser_updateUser_self (u : String) (upd : UserUpdates) (db : Db) (usr : User)
    (hu : getUser u db = some usr) :
    getUser u (updateUser u upd db).2 = some (applyUserUpdates upd usr) :=
  find?_map_updateUser u upd db.users usr hu

/-- C7: every successful join — newly joined or already a member — sets
the joining user's role to OWNER and resets their onboarding flag. -/
theorem joinWorkspace_sets_owner_and_resets_onboarding
    (u token : String) (db : Db) (usr : User) (wid : String)
    (hu : getUser u db = some usr)
    (hsuccess : (joinWorkspace (some u) token db).1 = .joined wid
      ∨ (joinWorkspace (some u) token db).1 = .alreadyMember wid) :
    ∃ usr', getUser u (joinWorkspace (some u) token db).2 = some usr'
      ∧ usr'.role = some "OWNER" ∧ usr'.onboardingComplete = false := by
  by_cases ht : (token == "") = true
  · exfalso
    simp only [joinWorkspace, if_pos ht] at hsuccess
    rcases hsuccess with h | h <;> simp at h
  · cases hw : getWorkspaceByToken token db with
    | none =>
      exfalso
      simp only [joinWorkspace, if_neg ht, hw] at hsuccess
      rcases hsuccess with h | h <;> simp at h
    | some ws =>
      by_cases hself : (ws.trainerUserId == u) = true
      · exfalso
        simp only [joinWorkspace, if_neg ht, hw, if_pos hself] at hsuccess
        rcases hsuccess with h | h <;> simp at h
      · have htok' : token ≠ "" := by simpa using ht
        have hself' : ws.trainerUserId ≠ u := by simpa using hself
        rw [joinWorkspace_eq u token db ws htok' hw hself']
        by_cases hmem : (getWorkspaceMembers ws.id db).any (fun m => m.userId == u) = true
        · rw [if_pos hmem]
          exact ⟨applyUserUpdates ownerJoinUpdates usr,
            getUser_updateUser_self u _ db usr hu, rfl, rfl⟩
        · rw [if_neg hmem]
          exact ⟨applyUserUpdates ownerJoinUpdates usr,
            getUser_updateUser_self u _ _ usr hu, rfl, rfl⟩

/-- Witness for `joinWorkspace_sets_owner_and_resets_onboarding`: user
`"u1"` joins workspace `"w1"` and comes out with role OWNER and
onboarding reset. -/
theorem joinWorkspace_sets_owner_witness :
    ∃ usr', getUser "u1" (joinWorkspace (some "u1") "tok1" dbJoinFixture).2 = some usr'
      ∧ usr'.role = some "OWNER" ∧ usr'.onboardingComplete = false :=
  joinWorkspace_sets_owner_and_resets_onboarding "u1" "tok1" dbJoinFixture
    { id := "u1", role := none, onboardingComplete := false } wsFixture.id
    (by decide) (Or.inl (by decide))

/-! ## Token validation (`GET /api/workspaces/validate/:token`) -/

/-- The response of the validate handler. -/
inductive ValidateResponse where
  /-- HTTP 404: "Invalid invite link". -/
  | notFound
  /-- HTTP 200: workspace id, trainer display name, business name. -/
  | ok (workspaceId : String) (trainerName : String) (businessName : Option String)
  deriving Repr, DecidableEq

/-- The trainer name the validate handler renders:
`` `${workspace.trainer?.firstName || ""} ${workspace.trainer?.lastName || ""}`.trim() ``,
with the workspace's trainer row joined by id. -/
def trainerDisplayName (ws : Workspace) (db : Db) : String :=
  let trainer := getUser ws.trainerUserId db
  jsTrim (((trainer.bind User.firstName).getD "") ++ " "
    ++ ((trainer.bind User.lastName).getD ""))

/-- The `GET /api/workspaces/validate/:token` handler (read-only). -/
def validateToken (token : String) (db : Db) : ValidateResponse :=
  match getWorkspaceByToken token db with
  | none => .notFound
  | some workspace => .ok workspace.id (trainerDisplayName workspace db)
      workspace.businessName

/-- `find?` returns the element a predicate picks out uniquely. -/
lemma find?_eq_some_of_unique {α : Type} (p : α → Bool) (l : List α) (a : α)
    (ha : a ∈ l) (hpa : p a = true) (huniq : ∀ b ∈ l, p b = true → b = a) :
    l.find? p = some a := by
  induction l with
  | nil => cases ha
  | cons x xs ih =>
    by_cases hx : p x = true
    · rw [List.find?_cons_of_pos xs hx, huniq x (List.mem_cons_self x xs) hx]
    · rw [List.find?_cons_of_neg xs hx]
      rcases List.mem_cons.mp ha with rfl | hm
      · exact absurd hpa hx
      · exact ih hm (fun b hb hpb => huniq b (List.mem_cons_of_mem _ hb) hpb)

/-- C9: a token equal to some workspace's invite token (tokens are
unique per the schema) validates to that workspace's id, the issuing
trainer's display name and the business name; a token matching no
workspace validates to not-found. -/
theorem validateToken_spec (token : String) (db : Db) :
    (∀ ws ∈ db.workspaces, ws.inviteToken = token →
      (∀ w ∈ db.workspaces, w.inviteToken = token → w = ws) →
      validateToken token db = .ok ws.id (trainerDisplayName ws db) ws.businessName)
    ∧ ((∀ w ∈ db.workspaces, w.inviteToken ≠ token) →
      validateToken token db = .notFound) := by
  constructor
  · intro ws hmem htok huniq
    have hfind : getWorkspaceByToken token db = some ws :=
      find?_eq_some_of_unique (fun (w : Workspace) => w.inviteToken == token)
        db.workspaces ws hmem (by simp [htok])
        (fun b hb hpb => huniq b hb (by simpa using hpb))
    simp [validateToken, hfind]
  · intro h
    have hfind : getWorkspaceByToken token db = none :=
      List.find?_eq_none.mpr (fun w hw => by simpa using h w hw)
    simp [validateToken, hfind]

/-- Witness for `validateToken_spec`: the fixture token resolves to
workspace `"w1"` with trainer name "Sarah Johnson"; an unknown token is
not found. -/
theorem validateToken_witness :
    validateToken "tok1" dbJoinFixture
      = .ok wsFixture.id (trainerDisplayName wsFixture dbJoinFixture)
          wsFixture.businessName
    ∧ validateToken "nope" dbJoinFixture = .notFound
    ∧ trainerDisplayName wsFixture dbJoinFixture = "Sarah Johnson" :=
  ⟨(validateToken_spec "tok1" dbJoinFixture).1 wsFixture (by decide) (by decide)
      (by decide),
   (validateToken_spec "nope" dbJoinFixture).2 (by decide),
   by decide⟩

/-! ## Trainer profile (`POST /api/workspaces/trainer-profile`) -/

/-- The response of the trainer-profile handler. -/
inductive ProfileResponse where
  /-- HTTP 401: no authenticated user id. -/
  | unauthenticated
  /-- HTTP 400: "Display name is required". -/
  | displayNameRequired
  /-- HTTP 200: the updated user record. -/
  | ok (user : Option User)
  deriving Repr, DecidableEq

/-- The `POST /api/workspaces/trainer-profile` handler.  The invite
token `crypto.randomBytes(24).toString("base64url")` generated in the
no-workspace branch is passed in as `freshToken`. -/
def setTrainerProfile (userId? : Option String)
    (displayName businessName bio profilePhoto : Option String)
    (freshToken : String) (db : Db) : ProfileResponse × Db :=
  match userId? with
  | none => (.unauthenticated, db)
  | some userId =>
    match displayName with
    | none => (.displayNameRequired, db)
    | some dn =>
      if jsTrim dn = "" then (.displayNameRequired, db)
      else
        let nameParts := jsSplitOnSpace (jsTrim dn)
        let firstName := nameParts.headD ""
        let lastName := jsOrNull (some (jsJoinSpace (nameParts.drop 1)))
        let db1 := (updateUser userId
          { firstName := some (some firstName),
            lastName := some lastName,
            profileImageUrl :=
              match jsOrNull profilePhoto with
              | some p => some (some p)
              | none => none,
            role := some (some "TRAINER"),
            onboardingComplete := some true } db).2
        match getWorkspaceByTrainer userId db1 with
        | none =>
          let (wsId, db2) := genId db1
          let workspace : Workspace :=
            { id := wsId, trainerUserId := userId, inviteToken := freshToken,
              businessName := jsOrNull businessName, bio := jsOrNull bio }
          let db3 := createWorkspace workspace db2
          let (memberId, db4) := genId db3
          let db5 := addWorkspaceMember
            { id := memberId, workspaceId := wsId, userId := userId, role := "TRAINER" }
            db4
          (.ok (getUser userId db5), db5)
        | some workspace =>
          let db2 := (updateWorkspace workspace.id
            { businessName := some (jsOrNull businessName),
              bio := some (jsOrNull bio) } db1).2
          (.ok (getUser userId db2), db2)

/-- `updateUser` does not touch the workspaces table. -/
lemma getWorkspaceByTrainer_updateUser (u uid : String) (upd : UserUpdates) (db : Db) :
    getWorkspaceByTrainer u (updateUser uid upd db).2 = getWorkspaceByTrainer u db := rfl

/-- The claim's reading of the name split: the whitespace-separated
tokens of the trimmed display name. -/
def whitespaceTokens (s : String) : List String :=
  ((splitChars Char.isWhitespace (jsTrim s).data).filter (fun w => w ≠ [])).map
    (fun w => ⟨w⟩)

/-- A database with one bare signed-in user and no workspace. -/
def dbProfileFixture : Db :=
  { users := [{ id := "u2" }] }

/-- C8, counterexample: the handler splits the display name on the space
character only (`split(" ")`), not on whitespace.  For the display name
`"Sarah\tJohnson"` (a tab between the names) the first
whitespace-separated token is `"Sarah"`, but the code stores the whole
string as `firstName` and leaves `lastName` null. -/
theorem trainerProfile_whitespace_counterexample :
    whitespaceTokens "Sarah\tJohnson" = ["Sarah", "Johnson"]
    ∧ (getUser "u2" (setTrainerProfile (some "u2") (some "Sarah\tJohnson")
        none none none "tokX" dbProfileFixture).2).map User.firstName
        = some (some "Sarah\tJohnson")
    ∧ (getUser "u2" (setTrainerProfile (some "u2") (some "Sarah\tJohnson")
        none none none "tokX" dbProfileFixture).2).map User.firstName
        ≠ some (some "Sarah") := by
  refine ⟨by decide, by decide, by decide⟩

/-- C8 (amended: the display name is split on the space character, not
on general whitespace): setting the trainer profile stores the first
space-separated token as `firstName` and the space-joined remainder (or
null, if empty) as `lastName`, sets role TRAINER and marks onboarding
complete; if the trainer has no workspace, exactly one workspace is
created for them, carrying the freshly generated invite token (non-null
by schema) and the given business name/bio; otherwise the existing
workspace's business name and bio are updated and no workspace is
added. -/
theorem setTrainerProfile_spec (u dn : String)
    (businessName bio profilePhoto : Option String) (freshToken : String)
    (db : Db) (usr : User)
    (hu : getUser u db = some usr) (htrim : jsTrim dn ≠ "") :
    (∃ usr', getUser u (setTrainerProfile (some u) (some dn) businessName bio
        profilePhoto freshToken db).2 = some usr'
      ∧ usr'.firstName = some ((jsSplitOnSpace (jsTrim dn)).headD "")
      ∧ usr'.lastName = jsOrNull (some (jsJoinSpace ((jsSplitOnSpace (jsTrim dn)).drop 1)))
      ∧ usr'.role = some "TRAINER"
      ∧ usr'.onboardingComplete = true)
    ∧ (getWorkspaceByTrainer u db = none →
        ((setTrainerProfile (some u) (some dn) businessName bio profilePhoto
            freshToken db).2).workspaces.filter
              (fun (w : Workspace) => w.trainerUserId == u)
          = [{ id := toString db.nextId, trainerUserId := u, inviteToken := freshToken,
               businessName := jsOrNull businessName, bio := jsOrNull bio }])
    ∧ (∀ ws, getWorkspaceByTrainer u db = some ws →
        ((setTrainerProfile (some u) (some dn) businessName bio profilePhoto
            freshToken db).2).workspaces
          = db.workspaces.map (fun w => if w.id == ws.id then
              applyWorkspaceUpdates
                { businessName := some (jsOrNull businessName),
                  bio := some (jsOrNull bio) } w
              else w)) := by
  simp only [setTrainerProfile]
  rw [if_neg htrim, getWorkspaceByTrainer_updateUser]
  cases hws : getWorkspaceByTrainer u db with
  | none =>
    refine ⟨⟨applyUserUpdates _ usr, getUser_updateUser_self u _ db usr hu,
        rfl, rfl, rfl, rfl⟩, ?_, ?_⟩
    · intro _
      dsimp only [createWorkspace, addWorkspaceMember, genId, updateUser]
      rw [List.filter_append]
      have h0 : db.workspaces.filter (fun (w : Workspace) => w.trainerUserId == u) = [] :=
        List.filter_eq_nil_iff.mpr (List.find?_eq_none.mp hws)
      rw [h0]
      simp
    · intro ws hcontra
      cases hcontra
  | some ws0 =>
    refine ⟨⟨applyUserUpdates _ usr, getUser_updateUser_self u _ db usr hu,
        rfl, rfl, rfl, rfl⟩, ?_, ?_⟩
    · intro hcontra
      cases hcontra
    · intro ws hws2
      injection hws2 with h'
      subst h'
      rfl

/-- Witness for `setTrainerProfile_spec`: the "Sarah Johnson" scenario
on a fresh user with no workspace. -/
theorem setTrainerProfile_witness :
    (∃ usr', getUser "u2" (setTrainerProfile (some "u2") (some "Sarah Johnson")
        none none none "tokX" dbProfileFixture).2 = some usr'
      ∧ usr'.firstName = some ((jsSplitOnSpace (jsTrim "Sarah Johnson")).headD "")
      ∧ usr'.lastName
          = jsOrNull (some (jsJoinSpace ((jsSplitOnSpace (jsTrim "Sarah Johnson")).drop 1)))
      ∧ usr'.role = some "TRAINER"
      ∧ usr'.onboardingComplete = true)
    ∧ ((setTrainerProfile (some "u2") (some "Sarah Johnson")
        none none none "tokX" dbProfileFixture).2).workspaces.filter
          (fun (w : Workspace) => w.trainerUserId == "u2")
        = [{ id := "0", trainerUserId := "u2", inviteToken := "tokX",
             businessName := none, bio := none }]
    ∧ (jsSplitOnSpace (jsTrim "Sarah Johnson")).headD "" = "Sarah"
    ∧ jsOrNull (some (jsJoinSpace ((jsSplitOnSpace (jsTrim "Sarah Johnson")).drop 1)))
        = some "Johnson" := by
  have h := setTrainerProfile_spec "u2" "Sarah Johnson" none none none "tokX"
    dbProfileFixture { id := "u2" } (by decide) (by decide)
  exact ⟨h.1, h.2.1 (by decide), by decide, by decide⟩

/-! ## Submission creation (`POST /api/submissions`) -/

/-- One item of the request's `media` array. -/
structure MediaIn where
  mediaType : String
  filePath : String
  fileName : Option String := none
  deriving Repr, DecidableEq

/-- The response of the submission handler. -/
inductive SubmitResponse where
  /-- HTTP 403 from the `requireOwner` middleware ("Owner role required"). -/
  | forbidden
  /-- HTTP 404: "Task not found". -/
  | taskNotFound
  /-- HTTP 400: "This task has been closed and no longer accepts submissions". -/
  | taskClosed
  /-- HTTP 403: "Access denied" (not the pet's owner). -/
  | accessDenied
  /-- HTTP 201: the created submission's id. -/
  | created (submissionId : String)
  deriving Repr, DecidableEq

/-- `getUserWithRole`: resolve the request's user id to its user row. -/
def getUserWithRole (userId? : Option String) (db : Db) : Option User :=
  match userId? with
  | none => none
  | some userId => getUser userId db

/-- The `requireOwner` middleware: the request's user, provided their
role is OWNER or ADMIN. -/
def requireOwnerUser (userId? : Option String) (db : Db) : Option User :=
  match getUserWithRole userId? db with
  | none => none
  | some user =>
    if user.role == some "OWNER" || user.role == some "ADMIN" then some user
    else none

/-- The `POST /api/submissions` handler (behind `requireOwner`).  The
database's `defaultNow()` for `submittedAt` is the explicit `now`
argument; the created submission's id comes from the id supply. -/
def postSubmission (userId? : Option String) (taskId : String) (note : Option String)
    (media : Option (List MediaIn)) (now : Nat) (db : Db) : SubmitResponse × Db :=
  match requireOwnerUser userId? db with
  | none => (.forbidden, db)
  | some user =>
    match getTask taskId db with
    | none => (.taskNotFound, db)
    | some task =>
      if !task.isActive then (.taskClosed, db)
      else
        match getPet task.petId db with
        | none => (.accessDenied, db)
        | some pet =>
          if pet.ownerId != user.id then (.accessDenied, db)
          else
            let (submissionId, db1) := genId db
            let db2 := createSubmission
              { id := submissionId, taskId := taskId, submittedByUserId := user.id,
                note := jsOrNull note, status := "COMPLETED", submittedAt := now } db1
            let db3 := (media.getD []).foldl (fun acc item =>
              let (mediaId, acc1) := genId acc
              createSubmissionMedia
                { id := mediaId, submissionId := submissionId,
                  mediaType := item.mediaType, filePath := item.filePath,
                  fileName := item.fileName } acc1) db2
            (.created submissionId, db3)

/-- The media-upload loop only writes submission media rows: it leaves
the submissions table unchanged. -/
lemma foldl_media_homeworkSubmissions (sid : String) (l : List MediaIn) (db : Db) :
    (l.foldl (fun acc item =>
      let (mediaId, acc1) := genId acc
      createSubmissionMedia
        { id := mediaId, submissionId := sid, mediaType := item.mediaType,
          filePath := item.filePath, fileName := item.fileName } acc1) db).homeworkSubmissions
      = db.homeworkSubmissions := by
  induction l generalizing db with
  | nil => rfl
  | cons x xs ih =>
    rw [List.foldl_cons]
    exact ih _

/-- C5: a submission against an inactive task is rejected with a
400-class error (403 when role-gating already rejects, else the 400
"task closed") and the state is unchanged; a submission by the pet's
owner against an active task appends exactly one submission row, built
from the request. -/
theorem postSubmission_spec (userId? : Option String) (taskId : String)
    (note : Option String) (media : Option (List MediaIn)) (now : Nat) (db : Db)
    (task : HomeworkTask) (htask : getTask taskId db = some task) :
    (task.isActive = false →
      (postSubmission userId? taskId note media now db).2 = db
      ∧ ((postSubmission userId? taskId note media now db).1 = .forbidden
        ∨ (postSubmission userId? taskId note media now db).1 = .taskClosed))
    ∧ (∀ user pet, requireOwnerUser userId? db = some user →
        task.isActive = true → getPet task.petId db = some pet →
        pet.ownerId = user.id →
        (postSubmission userId? taskId note media now db).1
          = .created (toString db.nextId)
        ∧ (postSubmission userId? taskId note media now db).2.homeworkSubmissions
          = db.homeworkSubmissions
            ++ [{ id := toString db.nextId, taskId := taskId,
                  submittedByUserId := user.id, note := jsOrNull note,
                  status := "COMPLETED", submittedAt := now }]) := by
  constructor
  · intro hinactive
    cases hreq : requireOwnerUser userId? db with
    | none =>
      simp only [postSubmission, hreq]
      exact ⟨trivial, Or.inl trivial⟩
    | some user =>
      simp only [postSubmission, hreq, htask, hinactive, Bool.not_false, if_true]
      exact ⟨trivial, Or.inr trivial⟩
  · intro user pet hreq hactive hpet hown
    have hneq : (pet.ownerId != user.id) = false := by simp [hown]
    simp only [postSubmission, hreq, htask, hpet, hactive, hneq, Bool.not_true,
      Bool.false_eq_true, if_false]
    refine ⟨rfl, ?_⟩
    rw [foldl_media_homeworkSubmissions]
    rfl

/-- A database with an owner, their pet, a closed task `"t1"` and an
active task `"t2"`. -/
def dbSubFixture : Db :=
  { users := [{ id := "o1", role := some "OWNER" }],
    pets := [{ id := "p1", name := "Buddy", ownerId := "o1" }],
    homeworkTasks :=
      [{ id := "t1", petId := "p1", createdByTrainerId := "tr1", title := "Sit",
         instructions := "", frequency := "daily", isActive := false },
       { id := "t2", petId := "p1", createdByTrainerId := "tr1", title := "Stay",
         instructions := "", frequency := "daily", isActive := true }],
    nextId := 7 }

/-- Witness for `postSubmission_spec`: owner `"o1"` is rejected on the
closed task `"t1"` with the state unchanged, and creates row `"7"` on
the active task `"t2"`. -/
theorem postSubmission_witness :
    ((postSubmission (some "o1") "t1" none none 99 dbSubFixture).2 = dbSubFixture
      ∧ ((postSubmission (some "o1") "t1" none none 99 dbSubFixture).1 = .forbidden
        ∨ (postSubmission (some "o1") "t1" none none 99 dbSubFixture).1 = .taskClosed))
    ∧ ((postSubmission (some "o1") "t2" none none 99 dbSubFixture).1 = .created "7"
      ∧ (postSubmission (some "o1") "t2" none none 99 dbSubFixture).2.homeworkSubmissions
        = dbSubFixture.homeworkSubmissions
          ++ [{ id := "7", taskId := "t2", submittedByUserId := "o1", note := none,
                status := "COMPLETED", submittedAt := 99 }]) :=
  ⟨(postSubmission_spec (some "o1") "t1" none none 99 dbSubFixture
      { id := "t1", petId := "p1", createdByTrainerId := "tr1", title := "Sit",
        instructions := "", frequency := "daily", isActive := false }
      (by decide)).1 rfl,
   (postSubmission_spec (some "o1") "t2" none none 99 dbSubFixture
      { id := "t2", petId := "p1", createdByTrainerId := "tr1", title := "Stay",
        instructions := "", frequency := "daily", isActive := true }
      (by decide)).2
      { id := "o1", role := some "OWNER" }
      { id := "p1", name := "Buddy", ownerId := "o1" }
      (by decide) rfl (by decide) rfl⟩

/-! ## Preferred days (`PATCH /api/tasks/:id/preferred-days`) -/

/-- The response of the preferred-days handler. -/
inductive PreferredDaysResponse where
  /-- HTTP 401: "Unauthorized". -/
  | unauthorized
  /-- HTTP 404: "Task not found". -/
  | taskNotFound
  /-- HTTP 404: "Pet not found". -/
  | petNotFound
  /-- HTTP 403: "Only the pet owner can set preferred days". -/
  | forbidden
  /-- HTTP 400: "Invalid preferred days". -/
  | invalidDays
  /-- HTTP 200: the updated task row. -/
  | updated (task : Option HomeworkTask)
  deriving Repr, DecidableEq

/-- The handler's `validDays` list. -/
def validDays : List String := ["Mon", "Tue", "Wed", "Thu", "Fri", "Sat", "Sun"]

/-- The `PATCH /api/tasks/:id/preferred-days` handler.  The request's
`preferredDays` is `null` (`none`) or an array of strings (`some`); a
non-array body is outside the embedding's input type. -/
def setPreferredDays (userId? : Option String) (taskId : String)
    (preferredDays : Option (List String)) (db : Db) :
    PreferredDaysResponse × Db :=
  match getUserWithRole userId? db with
  | none => (.unauthorized, db)
  | some user =>
    match getTask taskId db with
    | none => (.taskNotFound, db)
    | some task =>
      match getPet task.petId db with
      | none => (.petNotFound, db)
      | some pet =>
        if pet.ownerId != user.id && user.role != some "ADMIN" then (.forbidden, db)
        else if preferredDays.isSome
            && !((preferredDays.getD []).all (fun d => validDays.contains d)) then
          (.invalidDays, db)
        else
          let newDays : Option (List String) :=
            match preferredDays with
            | some l => if l.length > 0 then some l else none
            | none => none
          let (updatedTask, db1) := updateTask taskId { preferredDays := some newDays } db
          (.updated updatedTask, db1)

/-- `applyTaskUpdates` never changes a row's id. -/
lemma applyTaskUpdates_id (upd : TaskUpdates) (t : HomeworkTask) :
    (applyTaskUpdates upd t).id = t.id := rfl

/-- Updating the task rows whose id matches commutes with looking the id
up. -/
lemma find?_map_updateTask (i : String) (upd : TaskUpdates) (l : List HomeworkTask)
    (t0 : HomeworkTask) (ht : l.find? (fun x => x.id == i) = some t0) :
    (l.map (fun x => if x.id == i then applyTaskUpdates upd x else x)).find?
      (fun x => x.id == i) = some (applyTaskUpdates upd t0) := by
  induction l with
  | nil => simp at ht
  | cons x xs ih =>
    rw [List.map_cons]
    by_cases hx : (x.id == i) = true
    · rw [List.find?_cons_of_pos (p := fun (y : HomeworkTask) => y.id == i) xs hx] at ht
      rw [if_pos hx, List.find?_cons_of_pos (p := fun (y : HomeworkTask) => y.id == i) _
        (show ((applyTaskUpdates upd x).id == i) = true by
          rw [applyTaskUpdates_id]; exact hx)]
      simp only [Option.some.injEq] at ht
      rw [ht]
    · rw [List.find?_cons_of_neg (p := fun (y : HomeworkTask) => y.id == i) xs hx] at ht
      rw [if_neg hx, List.find?_cons_of_neg (p := fun (y : HomeworkTask) => y.id == i) _ hx]
      exact ih ht

/-- C10: with the requester resolved and authorized (pet owner or
admin), a supplied preferred-days list containing any value outside
Mon…Sun is rejected with the 400 "Invalid preferred days" and the state
is unchanged; an accepted `null` or empty list is persisted as null, and
an accepted non-empty list is persisted as given. -/
theorem setPreferredDays_spec (userId? : Option String) (taskId : String)
    (preferredDays : Option (List String)) (db : Db) (user : User)
    (task : HomeworkTask) (pet : Pet)
    (huser : getUserWithRole userId? db = some user)
    (htask : getTask taskId db = some task)
    (hpet : getPet task.petId db = some pet)
    (hauth : pet.ownerId = user.id ∨ user.role = some "ADMIN") :
    (∀ l, preferredDays = some l →
      l.all (fun d => validDays.contains d) = false →
      setPreferredDays userId? taskId preferredDays db = (.invalidDays, db))
    ∧ ((preferredDays = none ∨ preferredDays = some []) →
      (setPreferredDays userId? taskId preferredDays db).1
        = .updated (some { task with preferredDays := none })
      ∧ getTask taskId (setPreferredDays userId? taskId preferredDays db).2
        = some { task with preferredDays := none })
    ∧ (∀ l, preferredDays = some l → l ≠ [] →
      l.all (fun d => validDays.contains d) = true →
      (setPreferredDays userId? taskId preferredDays db).1
        = .updated (some { task with preferredDays := some l })
      ∧ getTask taskId (setPreferredDays userId? taskId preferredDays db).2
        = some { task with preferredDays := some l }) := by
  have hcond : (pet.ownerId != user.id && user.role != some "ADMIN") = false := by
    rcases hauth with h | h <;> simp [h]
  refine ⟨?_, ?_, ?_⟩
  · intro l hl hbad
    subst hl
    simp only [setPreferredDays, huser, htask, hpet, hcond, Bool.false_eq_true,
      if_false, Option.isSome_some, Option.getD_some, hbad, Bool.not_false,
      Bool.and_self, if_true]
  · intro h0
    have hfind := find?_map_updateTask taskId { preferredDays := some none }
      db.homeworkTasks task htask
    rcases h0 with rfl | rfl
    · simp only [setPreferredDays, huser, htask, hpet, hcond, Bool.false_eq_true,
        if_false, Option.isSome_none, Bool.false_and, updateTask]
      refine ⟨?_, ?_⟩
      · rw [hfind]
        rfl
      · show (db.homeworkTasks.map fun x =>
            if x.id == taskId then applyTaskUpdates { preferredDays := some none } x
            else x).find? (fun x => x.id == taskId)
          = some { task with preferredDays := none }
        rw [hfind]
        rfl
    · simp only [setPreferredDays, huser, htask, hpet, hcond, Bool.false_eq_true,
        if_false, Option.isSome_some, Option.getD_some, List.all_nil, Bool.not_true,
        Bool.and_false, List.length_nil, Nat.lt_irrefl, updateTask]
      refine ⟨?_, ?_⟩
      · rw [hfind]
        rfl
      · show (db.homeworkTasks.map fun x =>
            if x.id == taskId then applyTaskUpdates { preferredDays := some none } x
            else x).find? (fun x => x.id == taskId)
          = some { task with preferredDays := none }
        rw [hfind]
        rfl
  · intro l hl hne hvalid
    subst hl
    have hfind := find?_map_updateTask taskId { preferredDays := some (some l) }
      db.homeworkTasks task htask
    have hlen : (l.length > 0) = True := by
      simp [List.length_pos, hne]
    simp only [setPreferredDays, huser, htask, hpet, hcond, Bool.false_eq_true,
      if_false, Option.isSome_some, Option.getD_some, hvalid, Bool.not_true,
      Bool.and_false, hlen, if_true, updateTask]
    refine ⟨?_, ?_⟩
    · rw [hfind]
      rfl
    · show (db.homeworkTasks.map fun x =>
          if x.id == taskId then applyTaskUpdates { preferredDays := some (some l) } x
          else x).find? (fun x => x.id == taskId)
        = some { task with preferredDays := some l }
      rw [hfind]
      rfl

/-- Witness for `setPreferredDays_spec`: on the fixture, owner `"o1"`
has an invalid list rejected with no change, `null` persisted as null,
and `["Mon", "Wed"]` persisted as given. -/
theorem setPreferredDays_witness :
    setPreferredDays (some "o1") "t2" (some ["Mon", "Funday"]) dbSubFixture
      = (.invalidDays, dbSubFixture)
    ∧ (setPreferredDays (some "o1") "t2" none dbSubFixture).1
      = .updated (some
          { id := "t2", petId := "p1", createdByTrainerId := "tr1", title := "Stay",
            instructions := "", frequency := "daily", isActive := true,
            preferredDays := none })
    ∧ (setPreferredDays (some "o1") "t2" (some ["Mon", "Wed"]) dbSubFixture).1
      = .updated (some
          { id := "t2", petId := "p1", createdByTrainerId := "tr1", title := "Stay",
            instructions := "", frequency := "daily", isActive := true,
            preferredDays := some ["Mon", "Wed"] }) :=
  ⟨(setPreferredDays_spec (some "o1") "t2" (some ["Mon", "Funday"]) dbSubFixture
      { id := "o1", role := some "OWNER" }
      { id := "t2", petId := "p1", createdByTrainerId := "tr1", title := "Stay",
        instructions := "", frequency := "daily", isActive := true }
      { id := "p1", name := "Buddy", ownerId := "o1" }
      (by decide) (by decide) (by decide) (Or.inl rfl)).1
      ["Mon", "Funday"] rfl (by decide),
   ((setPreferredDays_spec (some "o1") "t2" none dbSubFixture
      { id := "o1", role := some "OWNER" }
      { id := "t2", petId := "p1", createdByTrainerId := "tr1", title := "Stay",
        instructions := "", frequency := "daily", isActive := true }
      { id := "p1", name := "Buddy", ownerId := "o1" }
      (by decide) (by decide) (by decide) (Or.inl rfl)).2.1 (Or.inl rfl)).1,
   ((setPreferredDays_spec (some "o1") "t2" (some ["Mon", "Wed"]) dbSubFixture
      { id := "o1", role := some "OWNER" }
      { id := "t2", petId := "p1", createdByTrainerId := "tr1", title := "Stay",
        instructions := "", frequency := "daily", isActive := true }
      { id := "p1", name := "Buddy", ownerId := "o1" }
      (by decide) (by decide) (by decide) (Or.inl rfl)).2.2
      ["Mon", "Wed"] rfl (by decide) (by decide)).1⟩

end PawSync
